import Mathlib

/-!
Shallow embedding of `luckvsskill.py` (the Luck-Vs-Skill Monte Carlo simulation).

The program draws two numeric samples (`skill`, `luck`) of length `n`, blends them
into an aggregate score, sorts the population by aggregate, slices off a cutoff
group, and compares it to a skill-only ranking.  Random sampling is external to
the program's logic, so the embedding is parameterised by the two sample lists,
with exact rational arithmetic in place of floating point.  NumPy's default sort
kind is quicksort; the embedding sorts with insertion sort, which agrees with any
comparison sort up to the order of elements with equal keys, and no theorem below
depends on the order of tied elements.
-/

namespace LuckVsSkill

/-- One row of `all_data` (line 84 of `luckvsskill.py`): the three columns
(aggregate, skill, luck) of one individual.  `np.mean(..., axis = 0)` results are
rows of the same shape. -/
structure Row where
  agg : ℚ
  skill : ℚ
  luck : ℚ
deriving DecidableEq

/-- Python `int()` applied to a real number: truncation toward zero. -/
def pyInt (q : ℚ) : Int := if q < 0 then ⌈q⌉ else ⌊q⌋

/-- Python slice `xs[s:]`.  A nonnegative start drops `s` elements (yielding `[]`
past the end); a negative start counts from the end of the list, clamped at the
start.  In particular `xs[-0:]` is `xs[0:]`, the whole list. -/
def pySliceFrom {α : Type} (s : Int) (xs : List α) : List α :=
  if 0 ≤ s then xs.drop s.toNat else xs.drop ((xs.length : Int) + s).toNat

/-- Lines 81 and 84: `aggregate = weight_skill*skill + (1.0-weight_skill)*luck`,
stacked with the two sample columns into rows `(aggregate, skill, luck)`. -/
def all_data (skill luck : List ℚ) (weight_skill : ℚ) : List Row :=
  List.zipWith (fun s l => ⟨weight_skill * s + (1 - weight_skill) * l, s, l⟩) skill luck

/-- Ordering of rows by the aggregate column, used by the argsort of line 87. -/
def aggLE (r₁ r₂ : Row) : Prop := r₁.agg ≤ r₂.agg

instance : DecidableRel aggLE := fun a b => inferInstanceAs (Decidable (a.agg ≤ b.agg))

instance : IsTotal Row aggLE := ⟨fun a b => le_total a.agg b.agg⟩

instance : IsTrans Row aggLE := ⟨fun _ _ _ h₁ h₂ => le_trans h₁ h₂⟩

/-- Line 87: `sorted_data = all_data[all_data[:,0].argsort()]` — the rows of
`all_data` reordered ascending by the aggregate column. -/
def sorted_data (skill luck : List ℚ) (weight_skill : ℚ) : List Row :=
  (all_data skill luck weight_skill).insertionSort aggLE

/-- Line 90: `cutoff = int(threshold*n)`, where `n` is the sample length. -/
def cutoff (threshold : ℚ) (n : ℕ) : Int := pyInt (threshold * n)

/-- Line 91: `cutoff_data = sorted_data[-cutoff:,:]`. -/
def cutoff_data (skill luck : List ℚ) (weight_skill threshold : ℚ) : List Row :=
  pySliceFrom (-cutoff threshold skill.length) (sorted_data skill luck weight_skill)

/-- Model of `np.mean(rows, axis = 0)`: the per-column arithmetic mean.  (On an
empty input NumPy yields NaN; in ℚ the quotient is `0 / 0 = 0`.  Every claim
about means below concerns a nonempty group.) -/
def colMeans (rows : List Row) : Row :=
  ⟨(rows.map Row.agg).sum / (rows.length : ℚ),
   (rows.map Row.skill).sum / (rows.length : ℚ),
   (rows.map Row.luck).sum / (rows.length : ℚ)⟩

/-- Line 92: `all_means = np.mean(all_data, axis = 0)`. -/
def all_means (skill luck : List ℚ) (weight_skill : ℚ) : Row :=
  colMeans (all_data skill luck weight_skill)

/-- Line 93: `cutoff_means = np.mean(cutoff_data, axis = 0)`. -/
def cutoff_means (skill luck : List ℚ) (weight_skill threshold : ℚ) : Row :=
  colMeans (cutoff_data skill luck weight_skill threshold)

/-- Line 96: `skill_data = np.sort(all_data[:,1])[-cutoff:]` — the skill column
sorted ascending, then the same Python tail slice. -/
def skill_data (skill luck : List ℚ) (weight_skill threshold : ℚ) : List ℚ :=
  pySliceFrom (-cutoff threshold skill.length)
    (((all_data skill luck weight_skill).map Row.skill).insertionSort (· ≤ ·))

/-- Line 97: the size `intersect_data.shape[0]` of `np.intersect1d(A, B)`, the
number of distinct values occurring in both `A` and `B`. -/
def intersect1d_card (A B : List ℚ) : ℕ :=
  (A.dedup.filter (fun v => decide (v ∈ B))).length

/-- Lines 97–98: `lucked_out_rate = 1.0 - intersect_data.shape[0]/cutoff_data.shape[0]`,
with `intersect_data = np.intersect1d(skill_data, cutoff_data[:,1])`. -/
def lucked_out_rate (skill luck : List ℚ) (weight_skill threshold : ℚ) : ℚ :=
  1 - (intersect1d_card (skill_data skill luck weight_skill threshold)
        ((cutoff_data skill luck weight_skill threshold).map Row.skill) : ℚ) /
      ((cutoff_data skill luck weight_skill threshold).length : ℚ)

/-- Lines 87–98 and 116 of `run_experiment`, from the point where the sampled
`skill` and `luck` columns are fixed: returns `(all_means, cutoff_means,
lucked_out_rate)`.  When `cutoff_data` is empty (which happens exactly when the
population is empty), line 98 divides the integer `intersect_data.shape[0]` by
the integer `0` and Python raises `ZeroDivisionError`; the embedding returns
`none` there. -/
def run_experiment (skill luck : List ℚ) (weight_skill threshold : ℚ) :
    Option (Row × Row × ℚ) :=
  if (cutoff_data skill luck weight_skill threshold).length = 0 then none
  else
    some (all_means skill luck weight_skill,
          cutoff_means skill luck weight_skill threshold,
          lucked_out_rate skill luck weight_skill threshold)

/-- A diagnostic event sent to the console by `run_experiment`.  Console text is
I/O; each constructor records the data handed to the corresponding block of
print calls (the verbose blocks print np.allclose booleans, computed by
floating-point mean, square root and comparison from exactly the recorded
inputs; the report block additionally rounds the means for display). -/
inductive OutEvent where
  /-- Lines 69–71: the allclose checks of the skill sample against mu, sigma. -/
  | skillChecks (mu sigma tolerance : ℚ) (skill : List ℚ) : OutEvent
  /-- Lines 75–77: the same checks for the luck sample. -/
  | luckChecks (mu sigma tolerance : ℚ) (luck : List ℚ) : OutEvent
  /-- Lines 101–113: the report block — weight, threshold, the two mean vectors,
  and the counts of participants selected and overlooked. -/
  | reportBlock (weight_skill threshold : ℚ) (all_m cutoff_m : Row)
      (selected overlooked : ℕ) : OutEvent
deriving DecidableEq

/-- Lines 67–116 of `run_experiment` with the diagnostic flags: the returned
triple together with the list of console events, in program order.  The
`verbose` blocks run right after each sample is drawn; the `report` block runs
after the computation, so it is not reached when line 98 raises (`none`). -/
def run_experiment_full (skill luck : List ℚ)
    (mu sigma weight_skill threshold tolerance : ℚ) (verbose report : Bool) :
    Option (Row × Row × ℚ) × List OutEvent :=
  let ev₁ := if verbose then [OutEvent.skillChecks mu sigma tolerance skill] else []
  let ev₂ := if verbose then [OutEvent.luckChecks mu sigma tolerance luck] else []
  let cd := cutoff_data skill luck weight_skill threshold
  if cd.length = 0 then (none, ev₁ ++ ev₂)
  else
    let k := intersect1d_card (skill_data skill luck weight_skill threshold)
      (cd.map Row.skill)
    let res := (all_means skill luck weight_skill,
                cutoff_means skill luck weight_skill threshold,
                lucked_out_rate skill luck weight_skill threshold)
    let ev₃ := if report then
        [OutEvent.reportBlock weight_skill threshold res.1 res.2.1 cd.length (cd.length - k)]
      else []
    (some res, ev₁ ++ ev₂ ++ ev₃)

/-- The state printed and plotted by `run_multiple_experiments` (lines 6–33):
the stacked per-run `all_means` rows (`pop`), the stacked per-run `cutoff_means`
rows (`cut`), the accumulated lucked-out rates (`scores`), and the four summary
means printed at lines 25–29 (`np.mean(pop[:,1])`, `np.mean(pop[:,2])`,
`np.mean(cut[:,1])`, `np.mean(cut[:,2])`). -/
structure BatchSummary where
  popRows : List Row
  cutRows : List Row
  scores : List ℚ
  popSkillMean : ℚ
  popLuckMean : ℚ
  cutSkillMean : ℚ
  cutLuckMean : ℚ
deriving DecidableEq

/-- Lines 6–33: the batch orchestrator.  The `i`-th invocation of the Experiment
Runner is modelled by `exp i` (the experiment is random, so its results are a
parameter).  One run happens before the loop and the loop body runs `m - 1`
times, each run appending (`np.vstack`) its rows and its rate.  When the loop
body never runs (`m - 1 = 0`, that is `m ≤ 1`), `pop` is still the 1-D 3-vector
returned by the first run, so `np.mean(pop[:,1])` at line 25 raises IndexError
(two indices into a 1-D array) before the skill/luck summary is printed; the
embedding returns `none` there.  With at least one `np.vstack` (`m ≥ 2`) the
stacked arrays are 2-D and the four summary means are printed.  The histogram
call only passes `scores` to the plotting library. -/
def run_multiple_experiments (exp : ℕ → Row × Row × ℚ) (m : ℕ) :
    Option BatchSummary :=
  let first := exp 0
  let acc := (List.range (m - 1)).foldl
    (fun acc i =>
      let r := exp (i + 1)
      (acc.1 ++ [r.1], acc.2.1 ++ [r.2.1], acc.2.2 ++ [r.2.2]))
    ([first.1], [first.2.1], [first.2.2])
  if m - 1 = 0 then none
  else
    some
      { popRows := acc.1
        cutRows := acc.2.1
        scores := acc.2.2
        popSkillMean := (acc.1.map Row.skill).sum / (acc.1.length : ℚ)
        popLuckMean := (acc.1.map Row.luck).sum / (acc.1.length : ℚ)
        cutSkillMean := (acc.2.1.map Row.skill).sum / (acc.2.1.length : ℚ)
        cutLuckMean := (acc.2.1.map Row.luck).sum / (acc.2.1.length : ℚ) }

/-- A constant experiment outcome, used to instantiate theorems about the batch
orchestrator at a concrete input. -/
def exConst : ℕ → Row × Row × ℚ := fun _ => (⟨1, 2, 3⟩, ⟨4, 5, 6⟩, 7)

example : cutoff (1/2) 1 = 0 := by norm_num [cutoff, pyInt]

example : (cutoff_data [(0:ℚ)] [(0:ℚ)] (19/20) (1/2)).length = 1 := by
  norm_num [cutoff_data, pySliceFrom, sorted_data, all_data, cutoff, pyInt]

example :
    run_experiment [(0:ℚ), 1] [(0:ℚ), 1] 1 1 =
      some (⟨1/2, 1/2, 1/2⟩, ⟨1/2, 1/2, 1/2⟩, 0) := by
  norm_num [run_experiment, cutoff_data, pySliceFrom, sorted_data, all_data, cutoff, pyInt,
    all_means, cutoff_means, colMeans, skill_data, intersect1d_card, aggLE,
    lucked_out_rate,
    List.dedup_cons_of_mem, List.dedup_cons_of_not_mem, Row.mk.injEq]

/-! ### Basic facts about the embedded pipeline -/

theorem length_all_data (skill luck : List ℚ) (w : ℚ)
    (hlen : luck.length = skill.length) :
    (all_data skill luck w).length = skill.length := by
  simp [all_data, hlen]

theorem sorted_data_perm (skill luck : List ℚ) (w : ℚ) :
    List.Perm (sorted_data skill luck w) (all_data skill luck w) :=
  List.perm_insertionSort _ _

theorem sorted_data_sorted (skill luck : List ℚ) (w : ℚ) :
    List.Sorted aggLE (sorted_data skill luck w) :=
  List.sorted_insertionSort aggLE _

theorem length_sorted_data (skill luck : List ℚ) (w : ℚ)
    (hlen : luck.length = skill.length) :
    (sorted_data skill luck w).length = skill.length := by
  rw [(sorted_data_perm skill luck w).length_eq, length_all_data skill luck w hlen]

theorem pySliceFrom_subset {α : Type} (s : Int) (xs : List α) :
    pySliceFrom s xs ⊆ xs := by
  unfold pySliceFrom
  split <;> exact List.drop_subset _ _

theorem pySliceFrom_neg {α : Type} {c : Int} (hc : 0 < c) (xs : List α) :
    pySliceFrom (-c) xs = xs.drop ((xs.length : Int) - c).toNat := by
  unfold pySliceFrom
  rw [if_neg (by omega)]
  congr 1

theorem pySliceFrom_neg_zero {α : Type} (xs : List α) :
    pySliceFrom (-(0 : Int)) xs = xs := by
  unfold pySliceFrom
  norm_num

theorem length_pySliceFrom_neg {α : Type} {c : Int} (hc : 0 < c) {xs : List α}
    (hle : c ≤ (xs.length : Int)) : (pySliceFrom (-c) xs).length = c.toNat := by
  rw [pySliceFrom_neg hc, List.length_drop]
  omega

theorem cutoff_eq_floor {θ : ℚ} (hθ : 0 ≤ θ) (n : ℕ) :
    cutoff θ n = ⌊θ * (n : ℚ)⌋ := by
  unfold cutoff pyInt
  rw [if_neg (not_lt.mpr (by positivity))]

theorem cutoff_nonneg {θ : ℚ} (hθ : 0 ≤ θ) (n : ℕ) : 0 ≤ cutoff θ n := by
  rw [cutoff_eq_floor hθ]
  exact Int.floor_nonneg.mpr (by positivity)

theorem cutoff_le {θ : ℚ} (hθ0 : 0 ≤ θ) (hθ1 : θ ≤ 1) (n : ℕ) :
    cutoff θ n ≤ (n : Int) := by
  rw [cutoff_eq_floor hθ0]
  have h : θ * (n : ℚ) ≤ (n : ℚ) := by nlinarith [Nat.cast_nonneg (α := ℚ) n]
  calc ⌊θ * (n : ℚ)⌋ ≤ ⌊(n : ℚ)⌋ := Int.floor_le_floor h
    _ = n := Int.floor_natCast n

theorem length_cutoff_data (skill luck : List ℚ) (w : ℚ) {θ : ℚ}
    (hlen : luck.length = skill.length) (hθ0 : 0 ≤ θ) (hθ1 : θ ≤ 1) :
    (cutoff_data skill luck w θ).length =
      if cutoff θ skill.length = 0 then skill.length
      else (cutoff θ skill.length).toNat := by
  have h0 := cutoff_nonneg hθ0 skill.length
  have h1 := cutoff_le hθ0 hθ1 skill.length
  unfold cutoff_data
  rcases eq_or_lt_of_le h0 with h | h
  · rw [← h, pySliceFrom_neg_zero, if_pos rfl, length_sorted_data skill luck w hlen]
  · rw [if_neg (by omega), length_pySliceFrom_neg h
      (by rw [length_sorted_data skill luck w hlen]; exact h1)]

theorem run_experiment_some {skill luck : List ℚ} {w θ : ℚ} {res : Row × Row × ℚ}
    (h : run_experiment skill luck w θ = some res) :
    (cutoff_data skill luck w θ).length ≠ 0 ∧
      res = (all_means skill luck w, cutoff_means skill luck w θ,
             lucked_out_rate skill luck w θ) := by
  by_cases hc : (cutoff_data skill luck w θ).length = 0
  · unfold run_experiment at h
    rw [if_pos hc] at h
    cases h
  · unfold run_experiment at h
    rw [if_neg hc] at h
    exact ⟨hc, (Option.some_inj.mp h).symm⟩

theorem colMeans_congr_perm {l₁ l₂ : List Row} (h : List.Perm l₁ l₂) :
    colMeans l₁ = colMeans l₂ := by
  unfold colMeans
  rw [h.length_eq, (h.map Row.agg).sum_eq, (h.map Row.skill).sum_eq,
    (h.map Row.luck).sum_eq]

theorem agg_of_mem_all_data {w : ℚ} :
    ∀ {skill luck : List ℚ} {r : Row}, r ∈ all_data skill luck w →
      r.agg = w * r.skill + (1 - w) * r.luck := by
  intro skill
  induction skill with
  | nil => intro luck r h; simp [all_data] at h
  | cons s tl ih =>
    intro luck r h
    cases luck with
    | nil => simp [all_data] at h
    | cons l ltl =>
      rw [all_data, List.zipWith_cons_cons] at h
      rcases List.mem_cons.mp h with h | h
      · subst h; rfl
      · exact ih h

theorem sum_map_blend {w : ℚ} :
    ∀ (rows : List Row), (∀ r ∈ rows, r.agg = w * r.skill + (1 - w) * r.luck) →
      (rows.map Row.agg).sum =
        w * (rows.map Row.skill).sum + (1 - w) * (rows.map Row.luck).sum := by
  intro rows
  induction rows with
  | nil => intro _; simp
  | cons r tl ih =>
    intro h
    simp only [List.map_cons, List.sum_cons]
    rw [h r (List.mem_cons_self r tl), ih fun x hx => h x (List.mem_cons_of_mem _ hx)]
    ring

theorem colMeans_blend {w : ℚ} {rows : List Row}
    (h : ∀ r ∈ rows, r.agg = w * r.skill + (1 - w) * r.luck) :
    (colMeans rows).agg =
      w * (colMeans rows).skill + (1 - w) * (colMeans rows).luck := by
  unfold colMeans
  dsimp only
  rw [sum_map_blend rows h, add_div, mul_div_assoc, mul_div_assoc]

theorem intersect1d_card_le (A B : List ℚ) : intersect1d_card A B ≤ B.length := by
  unfold intersect1d_card
  have hnd : (A.dedup.filter (fun v => decide (v ∈ B))).Nodup :=
    (List.nodup_dedup A).filter _
  have hsub : (A.dedup.filter (fun v => decide (v ∈ B))) ⊆ B := by
    intro x hx
    exact of_decide_eq_true (List.mem_filter.mp hx).2
  exact (List.subperm_of_subset hnd hsub).length_le

theorem card_mul_le_sum (c : ℚ) (A : List ℚ) (h : ∀ a ∈ A, c ≤ a) :
    (A.length : ℚ) * c ≤ A.sum := by
  induction A with
  | nil => simp
  | cons a tl ih =>
    have h₁ : c ≤ a := h a (List.mem_cons_self a tl)
    have h₂ := ih fun x hx => h x (List.mem_cons_of_mem _ hx)
    simp only [List.length_cons, List.sum_cons]
    push_cast
    nlinarith

theorem mul_sum_le_mul_sum (A B : List ℚ) (h : ∀ b ∈ B, ∀ a ∈ A, b ≤ a) :
    (A.length : ℚ) * B.sum ≤ (B.length : ℚ) * A.sum := by
  induction B with
  | nil => simp
  | cons b tl ih =>
    have h₁ : (A.length : ℚ) * b ≤ A.sum :=
      card_mul_le_sum b A (h b (List.mem_cons_self b tl))
    have h₂ := ih fun x hx => h x (List.mem_cons_of_mem _ hx)
    simp only [List.length_cons, List.sum_cons]
    push_cast
    nlinarith

theorem sum_div_le_tail_sum_div {L : List ℚ} (hL : L.Pairwise (· ≤ ·)) {k : ℕ}
    (hk : 1 ≤ k) (hkn : k ≤ L.length) :
    L.sum / (L.length : ℚ) ≤ (L.drop (L.length - k)).sum / (k : ℚ) := by
  have hsplit : L.take (L.length - k) ++ L.drop (L.length - k) = L :=
    List.take_append_drop _ L
  have hL' : (L.take (L.length - k) ++ L.drop (L.length - k)).Pairwise (· ≤ ·) := by
    rw [hsplit]; exact hL
  have hcross : ∀ b ∈ L.take (L.length - k), ∀ a ∈ L.drop (L.length - k), b ≤ a :=
    (List.pairwise_append.mp hL').2.2
  have hlenA : (L.drop (L.length - k)).length = k := by
    rw [List.length_drop]; omega
  have hlenB : (L.take (L.length - k)).length = L.length - k := by
    rw [List.length_take]; omega
  have key := mul_sum_le_mul_sum _ _ hcross
  rw [hlenA, hlenB] at key
  have hn : (0 : ℚ) < (L.length : ℚ) := by
    exact_mod_cast Nat.lt_of_lt_of_le Nat.zero_lt_one (le_trans hk hkn)
  have hkq : (0 : ℚ) < (k : ℚ) := by exact_mod_cast hk
  rw [div_le_div_iff₀ hn hkq]
  have hsum : L.sum = (L.take (L.length - k)).sum + (L.drop (L.length - k)).sum := by
    rw [← List.sum_append, hsplit]
  have hcast : ((L.length - k : ℕ) : ℚ) = (L.length : ℚ) - (k : ℚ) := by
    push_cast [hkn]
    ring
  rw [hcast] at key
  rw [hsum]
  nlinarith [key]

theorem batch_foldl_eq (exp : ℕ → Row × Row × ℚ) :
    ∀ (k : ℕ) (a b : List Row) (c : List ℚ),
      (List.range k).foldl
        (fun acc i =>
          (acc.1 ++ [(exp (i + 1)).1], acc.2.1 ++ [(exp (i + 1)).2.1],
           acc.2.2 ++ [(exp (i + 1)).2.2]))
        (a, b, c) =
      (a ++ (List.range k).map (fun i => (exp (i + 1)).1),
       b ++ (List.range k).map (fun i => (exp (i + 1)).2.1),
       c ++ (List.range k).map (fun i => (exp (i + 1)).2.2)) := by
  intro k
  induction k with
  | zero => intro a b c; simp
  | succ k ih =>
    intro a b c
    rw [List.range_succ, List.foldl_append, ih]
    simp [List.append_assoc]

theorem cutoff_data_subset (skill luck : List ℚ) (w θ : ℚ) :
    cutoff_data skill luck w θ ⊆ all_data skill luck w := by
  intro r hr
  unfold cutoff_data at hr
  exact (sorted_data_perm skill luck w).mem_iff.mp (pySliceFrom_subset _ _ hr)

/-! ### Claim theorems -/

/-- C1 (as stated, refuted): with a population of one individual and threshold
1/2 in (0,1], the cutoff size `int(threshold*n)` is 0, yet the extracted Cutoff
Group is not empty — the Python slice `sorted_data[-0:]` is the whole array, so
the group has 1 member, not `floor(threshold*n) = 0`. -/
theorem C1_counterexample :
    (0 : ℚ) < 1/2 ∧ (1/2 : ℚ) ≤ 1 ∧ 1 ≤ [(0 : ℚ)].length ∧
    cutoff (1/2) [(0 : ℚ)].length = 0 ∧
    (cutoff_data [(0 : ℚ)] [0] (19/20) (1/2)).length ≠ 0 := by
  refine ⟨by norm_num, by norm_num, by norm_num, ?_, ?_⟩
  · norm_num [cutoff, pyInt]
  · norm_num [cutoff_data, pySliceFrom, sorted_data, all_data, cutoff, pyInt]

/-- C1 (amended): for every population of size n ≥ 1 and threshold in (0,1],
the cutoff size `int(threshold*n)` equals `floor(threshold*n)` and lies in
[0, n], and the Cutoff Group has exactly that many members whenever it is
nonzero; when `floor(threshold*n) = 0` the Cutoff Group is not empty but is the
entire population of n members, because the Python tail slice `[-0:]` yields
the whole array. -/
theorem C1_cutoff_group_size (skill luck : List ℚ) (w θ : ℚ)
    (hlen : luck.length = skill.length) (hn : 1 ≤ skill.length)
    (hθ0 : 0 < θ) (hθ1 : θ ≤ 1) :
    cutoff θ skill.length = ⌊θ * (skill.length : ℚ)⌋ ∧
    0 ≤ cutoff θ skill.length ∧ cutoff θ skill.length ≤ (skill.length : Int) ∧
    (cutoff_data skill luck w θ).length =
      (if cutoff θ skill.length = 0 then skill.length
       else (cutoff θ skill.length).toNat) :=
  ⟨cutoff_eq_floor hθ0.le _, cutoff_nonneg hθ0.le _, cutoff_le hθ0.le hθ1 _,
   length_cutoff_data skill luck w hlen hθ0.le hθ1⟩

/-- Witness for C1: a concrete population of two individuals with threshold 1/2,
where the cutoff size is 1 and the Cutoff Group has exactly 1 member. -/
theorem C1_witness :
    (cutoff_data [(1 : ℚ), 2] [0, 0] 1 (1/2)).length =
      (if cutoff (1/2) [(1 : ℚ), 2].length = 0 then [(1 : ℚ), 2].length
       else (cutoff (1/2) [(1 : ℚ), 2].length).toNat) :=
  (C1_cutoff_group_size [(1 : ℚ), 2] [0, 0] 1 (1/2) rfl (by norm_num) (by norm_num)
    (by norm_num)).2.2.2

/-- C5 (as stated, refuted): on the degenerate input n = 0 the code does not
complete: line 98 divides by `cutoff_data.shape[0] = 0` on Python integers and
raises ZeroDivisionError before returning (the embedding marks this `none`),
so the degenerate case does not merely propagate as NaN means. -/
theorem C5_counterexample :
    run_experiment ([] : List ℚ) [] (19/20) (1/10000) = none := by
  norm_num [run_experiment, cutoff_data, pySliceFrom, sorted_data, all_data, cutoff, pyInt]

/-- C5 (amended): for a nonempty population (n ≥ 1) whose threshold yields
cutoff size 0, `run_experiment` completes without raising — and no NaN arises
at all, because the `[-0:]` slice makes the Cutoff Group the whole (sorted)
population; only n = 0 is degenerate, and there the code raises rather than
returning NaN values. -/
theorem C5_degenerate_cutoff (skill luck : List ℚ) (w θ : ℚ)
    (hlen : luck.length = skill.length) (hn : 1 ≤ skill.length)
    (hc : cutoff θ skill.length = 0) :
    (run_experiment skill luck w θ).isSome = true ∧
    cutoff_data skill luck w θ = sorted_data skill luck w := by
  have hcd : cutoff_data skill luck w θ = sorted_data skill luck w := by
    unfold cutoff_data
    rw [hc, pySliceFrom_neg_zero]
  refine ⟨?_, hcd⟩
  unfold run_experiment
  rw [if_neg]
  · rfl
  · rw [hcd, length_sorted_data skill luck w hlen]
    omega

/-- Witness for C5: a singleton population with threshold 1/2 (cutoff size 0):
the run completes and the Cutoff Group is the whole population. -/
theorem C5_witness :
    (run_experiment [(5 : ℚ)] [7] (1/2) (1/2)).isSome = true ∧
    cutoff_data [(5 : ℚ)] [7] (1/2) (1/2) = sorted_data [(5 : ℚ)] [7] (1/2) :=
  C5_degenerate_cutoff [(5 : ℚ)] [7] (1/2) (1/2) rfl (by norm_num)
    (by norm_num [cutoff, pyInt])

/-- C3: for every input with n ≥ 1 and cutoff size ≥ 1, the lucked-out rate
returned by `run_experiment` lies in [0, 1]: the intersection of line 97 has at
most `cutoff_data.shape[0]` distinct values, so the subtracted fraction is in
[0, 1]. -/
theorem C3_rate_in_unit_interval (skill luck : List ℚ) (w θ : ℚ)
    (hn : 1 ≤ skill.length) (hc : 1 ≤ cutoff θ skill.length)
    (res : Row × Row × ℚ) (h : run_experiment skill luck w θ = some res) :
    0 ≤ res.2.2 ∧ res.2.2 ≤ 1 := by
  obtain ⟨hne, hres⟩ := run_experiment_some h
  subst hres
  dsimp only
  unfold lucked_out_rate
  have hIle : intersect1d_card (skill_data skill luck w θ)
      ((cutoff_data skill luck w θ).map Row.skill) ≤
      (cutoff_data skill luck w θ).length := by
    simpa using intersect1d_card_le (skill_data skill luck w θ)
      ((cutoff_data skill luck w θ).map Row.skill)
  have hlen0 : (0 : ℚ) < ((cutoff_data skill luck w θ).length : ℚ) := by
    exact_mod_cast Nat.pos_of_ne_zero hne
  constructor
  · have hle1 : (intersect1d_card (skill_data skill luck w θ)
        ((cutoff_data skill luck w θ).map Row.skill) : ℚ) /
        ((cutoff_data skill luck w θ).length : ℚ) ≤ 1 := by
      rw [div_le_one hlen0]
      exact_mod_cast hIle
    linarith
  · have hge0 : (0 : ℚ) ≤ (intersect1d_card (skill_data skill luck w θ)
        ((cutoff_data skill luck w θ).map Row.skill) : ℚ) /
        ((cutoff_data skill luck w θ).length : ℚ) := by positivity
    linarith

/-- Witness for C3: the two-individual population of the worked example; the
returned rate is 0, which lies in [0, 1]. -/
theorem C3_witness :
    0 ≤ ((⟨1/2, 1/2, 1/2⟩, ⟨1/2, 1/2, 1/2⟩, (0 : ℚ)) : Row × Row × ℚ).2.2 ∧
    ((⟨1/2, 1/2, 1/2⟩, ⟨1/2, 1/2, 1/2⟩, (0 : ℚ)) : Row × Row × ℚ).2.2 ≤ 1 :=
  C3_rate_in_unit_interval [0, 1] [0, 1] 1 1 (by norm_num)
    (by norm_num [cutoff, pyInt]) _
    (by norm_num [run_experiment, cutoff_data, pySliceFrom, sorted_data, all_data,
      cutoff, pyInt, all_means, cutoff_means, colMeans, skill_data, intersect1d_card,
      aggLE, lucked_out_rate, List.dedup_cons_of_mem, List.dedup_cons_of_not_mem,
      Row.mk.injEq])

/-- C10: for every run with n ≥ 1 and cutoff size ≥ 1, the returned mean rows
satisfy the blend identity exactly: the mean aggregate of a group is
`weight_skill` times its mean skill plus `1 - weight_skill` times its mean
luck, both for `all_means` and for `cutoff_means` (every row of `all_data`
satisfies the identity of line 81, and the mean is linear). -/
theorem C10_blend_identity (skill luck : List ℚ) (w θ : ℚ)
    (hn : 1 ≤ skill.length) (hc : 1 ≤ cutoff θ skill.length)
    (res : Row × Row × ℚ) (h : run_experiment skill luck w θ = some res) :
    res.1.agg = w * res.1.skill + (1 - w) * res.1.luck ∧
    res.2.1.agg = w * res.2.1.skill + (1 - w) * res.2.1.luck := by
  obtain ⟨hne, hres⟩ := run_experiment_some h
  subst hres
  dsimp only
  unfold all_means cutoff_means
  exact ⟨colMeans_blend fun r hr => agg_of_mem_all_data hr,
         colMeans_blend fun r hr =>
           agg_of_mem_all_data (cutoff_data_subset skill luck w θ hr)⟩

/-- Witness for C10: the blend identity at the two-individual worked example
with weight 1. -/
theorem C10_witness :
    ((⟨1/2, 1/2, 1/2⟩, ⟨1/2, 1/2, 1/2⟩, (0 : ℚ)) : Row × Row × ℚ).1.agg =
      1 * ((⟨1/2, 1/2, 1/2⟩, ⟨1/2, 1/2, 1/2⟩, (0 : ℚ)) : Row × Row × ℚ).1.skill +
        (1 - 1) * ((⟨1/2, 1/2, 1/2⟩, ⟨1/2, 1/2, 1/2⟩, (0 : ℚ)) : Row × Row × ℚ).1.luck ∧
    ((⟨1/2, 1/2, 1/2⟩, ⟨1/2, 1/2, 1/2⟩, (0 : ℚ)) : Row × Row × ℚ).2.1.agg =
      1 * ((⟨1/2, 1/2, 1/2⟩, ⟨1/2, 1/2, 1/2⟩, (0 : ℚ)) : Row × Row × ℚ).2.1.skill +
        (1 - 1) * ((⟨1/2, 1/2, 1/2⟩, ⟨1/2, 1/2, 1/2⟩, (0 : ℚ)) : Row × Row × ℚ).2.1.luck :=
  C10_blend_identity [0, 1] [0, 1] 1 1 (by norm_num)
    (by norm_num [cutoff, pyInt]) _
    (by norm_num [run_experiment, cutoff_data, pySliceFrom, sorted_data, all_data,
      cutoff, pyInt, all_means, cutoff_means, colMeans, skill_data, intersect1d_card,
      aggLE, lucked_out_rate, List.dedup_cons_of_mem, List.dedup_cons_of_not_mem,
      Row.mk.injEq])

/-- C8: with threshold = 1 and n ≥ 1 the cutoff size is `int(n) = n`, so the
Cutoff Group is a permutation of the whole population (the same multiset of
individuals), and the returned `cutoff_means` equals `all_means` exactly in
every component. -/
theorem C8_threshold_one (skill luck : List ℚ) (w : ℚ)
    (hlen : luck.length = skill.length) (hn : 1 ≤ skill.length)
    (res : Row × Row × ℚ) (h : run_experiment skill luck w 1 = some res) :
    List.Perm (cutoff_data skill luck w 1) (all_data skill luck w) ∧
    res.2.1 = res.1 := by
  have hcut : cutoff 1 skill.length = (skill.length : Int) := by
    rw [cutoff_eq_floor (by norm_num) skill.length]
    norm_num
  have hpos : (0 : Int) < (skill.length : Int) := by exact_mod_cast hn
  have hcd : cutoff_data skill luck w 1 = sorted_data skill luck w := by
    unfold cutoff_data
    rw [hcut, pySliceFrom_neg hpos, length_sorted_data skill luck w hlen]
    simp
  have hperm : List.Perm (cutoff_data skill luck w 1) (all_data skill luck w) := by
    rw [hcd]
    exact sorted_data_perm skill luck w
  obtain ⟨hne, hres⟩ := run_experiment_some h
  subst hres
  refine ⟨hperm, ?_⟩
  dsimp only
  unfold cutoff_means all_means
  exact colMeans_congr_perm hperm

/-- Witness for C8: the two-individual worked example at threshold 1; the
Cutoff Group is the whole population and the two mean rows coincide. -/
theorem C8_witness :
    List.Perm (cutoff_data [(0 : ℚ), 1] [0, 1] 1 1) (all_data [(0 : ℚ), 1] [0, 1] 1) ∧
    ((⟨1/2, 1/2, 1/2⟩, ⟨1/2, 1/2, 1/2⟩, (0 : ℚ)) : Row × Row × ℚ).2.1 =
      ((⟨1/2, 1/2, 1/2⟩, ⟨1/2, 1/2, 1/2⟩, (0 : ℚ)) : Row × Row × ℚ).1 :=
  C8_threshold_one [(0 : ℚ), 1] [0, 1] 1 rfl (by norm_num) _
    (by norm_num [run_experiment, cutoff_data, pySliceFrom, sorted_data, all_data,
      cutoff, pyInt, all_means, cutoff_means, colMeans, skill_data, intersect1d_card,
      aggLE, lucked_out_rate, List.dedup_cons_of_mem, List.dedup_cons_of_not_mem,
      Row.mk.injEq])

/-- C7: for every population with at least two individuals and threshold < 1
yielding a cutoff size ≥ 1, the Cutoff Group mean aggregate returned in
`cutoff_means` is at least the whole-population mean aggregate returned in
`all_means` (in exact arithmetic): the group is the tail of the list sorted
ascending by aggregate, and a mean over the top slice cannot be below the
overall mean. -/
theorem C7_cutoff_mean_ge (skill luck : List ℚ) (w θ : ℚ)
    (hlen : luck.length = skill.length) (hn : 2 ≤ skill.length)
    (hθ0 : 0 ≤ θ) (hθ1 : θ < 1) (hc : 1 ≤ cutoff θ skill.length)
    (res : Row × Row × ℚ) (h : run_experiment skill luck w θ = some res) :
    res.1.agg ≤ res.2.1.agg := by
  obtain ⟨hne, hres⟩ := run_experiment_some h
  subst hres
  dsimp only
  have hcle := cutoff_le hθ0 hθ1.le skill.length
  have hcpos : (0 : Int) < cutoff θ skill.length := by omega
  set c := (cutoff θ skill.length).toNat with hcdef
  have hc1 : 1 ≤ c := by omega
  have hcn : c ≤ skill.length := by omega
  have hcd : cutoff_data skill luck w θ =
      (sorted_data skill luck w).drop (skill.length - c) := by
    unfold cutoff_data
    rw [pySliceFrom_neg hcpos, length_sorted_data skill luck w hlen]
    congr 1
    omega
  have hLsorted : ((sorted_data skill luck w).map Row.agg).Pairwise (· ≤ ·) :=
    List.pairwise_map.mpr (sorted_data_sorted skill luck w)
  have hLlen : ((sorted_data skill luck w).map Row.agg).length = skill.length := by
    rw [List.length_map, length_sorted_data skill luck w hlen]
  have key := sum_div_le_tail_sum_div hLsorted (k := c) hc1 (by rw [hLlen]; exact hcn)
  rw [hLlen] at key
  unfold all_means cutoff_means colMeans
  dsimp only
  rw [hcd, List.map_drop, List.length_drop, length_sorted_data skill luck w hlen,
    length_all_data skill luck w hlen,
    ← ((sorted_data_perm skill luck w).map Row.agg).sum_eq]
  have hsub : skill.length - (skill.length - c) = c := by omega
  rw [hsub]
  exact key

/-- Witness for C7: skills 1 and 2 with weight 1 and threshold 1/2; the cutoff
mean aggregate 2 is at least the population mean aggregate 3/2. -/
theorem C7_witness :
    ((⟨3/2, 3/2, 0⟩, ⟨2, 2, 0⟩, (0 : ℚ)) : Row × Row × ℚ).1.agg ≤
      ((⟨3/2, 3/2, 0⟩, ⟨2, 2, 0⟩, (0 : ℚ)) : Row × Row × ℚ).2.1.agg :=
  C7_cutoff_mean_ge [(1 : ℚ), 2] [0, 0] 1 (1/2) rfl (by norm_num) (by norm_num)
    (by norm_num) (by norm_num [cutoff, pyInt]) _
    (by norm_num [run_experiment, cutoff_data, pySliceFrom, sorted_data, all_data,
      cutoff, pyInt, all_means, cutoff_means, colMeans, skill_data, intersect1d_card,
      aggLE, lucked_out_rate, List.dedup_cons_of_mem, List.dedup_cons_of_not_mem,
      Row.mk.injEq])

theorem map_pySliceFrom {α β : Type} (f : α → β) (s : Int) (xs : List α) :
    (pySliceFrom s xs).map f = pySliceFrom s (xs.map f) := by
  unfold pySliceFrom
  rw [List.length_map]
  by_cases h : 0 ≤ s
  · rw [if_pos h, if_pos h, List.map_drop]
  · rw [if_neg h, if_neg h, List.map_drop]

theorem map_skill_sorted_data_w1 (skill luck : List ℚ) :
    (sorted_data skill luck 1).map Row.skill =
      ((all_data skill luck 1).map Row.skill).insertionSort (· ≤ ·) := by
  have hagg : ∀ r ∈ sorted_data skill luck 1, r.agg = r.skill := by
    intro r hr
    have h := agg_of_mem_all_data ((sorted_data_perm skill luck 1).mem_iff.mp hr)
    rw [h]
    ring
  apply List.eq_of_perm_of_sorted (r := (· ≤ ·))
  · exact ((sorted_data_perm skill luck 1).map Row.skill).trans
      (List.perm_insertionSort _ _).symm
  · show ((sorted_data skill luck 1).map Row.skill).Pairwise (· ≤ ·)
    rw [List.pairwise_map]
    refine List.Pairwise.imp_of_mem ?_ (sorted_data_sorted skill luck 1)
    intro a b ha hb hab
    have ha' := hagg a ha
    have hb' := hagg b hb
    unfold aggLE at hab
    rw [ha', hb'] at hab
    exact hab
  · exact List.sorted_insertionSort _ _

theorem cutoff_map_skill_eq_skill_data (skill luck : List ℚ) (θ : ℚ) :
    (cutoff_data skill luck 1 θ).map Row.skill = skill_data skill luck 1 θ := by
  unfold cutoff_data skill_data
  rw [map_pySliceFrom, map_skill_sorted_data_w1]

/-- C4 (as stated, refuted): with weight_skill = 1 and two individuals of equal
skill 1, the Cutoff Group and Skill-Only Group coincide as sets of skill values,
yet `run_experiment` returns lucked_out_rate = 1/2, not 0: `np.intersect1d`
counts the duplicated skill value once, while the denominator counts both
rows. -/
theorem C4_counterexample :
    run_experiment [(1 : ℚ), 1] [0, 0] 1 1 =
      some (⟨1, 1, 0⟩, ⟨1, 1, 0⟩, 1/2) ∧ (1/2 : ℚ) ≠ 0 := by
  constructor
  · norm_num [run_experiment, cutoff_data, pySliceFrom, sorted_data, all_data,
      cutoff, pyInt, all_means, cutoff_means, colMeans, skill_data, intersect1d_card,
      aggLE, lucked_out_rate, List.dedup_cons_of_mem, List.dedup_cons_of_not_mem,
      Row.mk.injEq]
  · norm_num

/-- C4 (amended): with weight_skill = 1 the aggregate column equals the skill
column, so the Cutoff Group skill values equal the Skill-Only Group elementwise
(hence as a set of skill values); and whenever the Cutoff Group skill values
are pairwise distinct, the returned lucked_out_rate is 0.  (With duplicated
skill values in the group the value-based intersection undercounts and the
rate is positive, as the counterexample shows.) -/
theorem C4_weight_one (skill luck : List ℚ) (θ : ℚ)
    (hnd : ((cutoff_data skill luck 1 θ).map Row.skill).Nodup)
    (res : Row × Row × ℚ) (h : run_experiment skill luck 1 θ = some res) :
    (cutoff_data skill luck 1 θ).map Row.skill = skill_data skill luck 1 θ ∧
    res.2.2 = 0 := by
  have hkey := cutoff_map_skill_eq_skill_data skill luck θ
  obtain ⟨hne, hres⟩ := run_experiment_some h
  subst hres
  refine ⟨hkey, ?_⟩
  dsimp only
  unfold lucked_out_rate intersect1d_card
  rw [← hkey, List.dedup_eq_self.mpr hnd,
    List.filter_eq_self.mpr fun a ha => decide_eq_true ha, List.length_map,
    div_self (by exact_mod_cast hne), sub_self]

/-- Witness for C4: two individuals with distinct skills 0 and 1, weight 1,
threshold 1: the skill columns agree and the returned rate is 0. -/
theorem C4_witness :
    (cutoff_data [(0 : ℚ), 1] [5, 6] 1 1).map Row.skill =
      skill_data [(0 : ℚ), 1] [5, 6] 1 1 ∧
    ((⟨1/2, 1/2, 11/2⟩, ⟨1/2, 1/2, 11/2⟩, (0 : ℚ)) : Row × Row × ℚ).2.2 = 0 :=
  C4_weight_one [(0 : ℚ), 1] [5, 6] 1
    (by norm_num [cutoff_data, pySliceFrom, sorted_data, all_data, cutoff, pyInt,
      aggLE]) _
    (by norm_num [run_experiment, cutoff_data, pySliceFrom, sorted_data, all_data,
      cutoff, pyInt, all_means, cutoff_means, colMeans, skill_data, intersect1d_card,
      aggLE, lucked_out_rate, List.dedup_cons_of_mem, List.dedup_cons_of_not_mem,
      Row.mk.injEq])

/-- C6 (as stated, refuted): at the positive batch count m = 1 the loop body
never runs, so `pop` is still the 1-D 3-vector returned by the single
experiment, and `np.mean(pop[:,1])` at line 25 raises IndexError before the
skill/luck summary is printed — the orchestrator does not print the summary
(the model returns `none`). -/
theorem C6_counterexample :
    1 ≤ 1 ∧ run_multiple_experiments exConst 1 = none :=
  ⟨le_refl 1, rfl⟩

/-- C6 (amended): for every m ≥ 2 the batch orchestrator uses the Experiment
Runner results of runs 0 through m-1 exactly (one call before the loop and m-1
calls inside it), accumulates the m all_means rows, the m cutoff_means rows and
the m lucked-out rates, and prints the summary consisting of the means of the
skill and luck columns over the m accumulated rows of each kind.  At m = 1 the
code instead raises IndexError at line 25 (pop is still 1-D) before the summary
is printed. -/
theorem C6_batch (exp : ℕ → Row × Row × ℚ) (m : ℕ) (hm : 2 ≤ m) :
    run_multiple_experiments exp m = some
      { popRows := (List.range m).map (fun i => (exp i).1)
        cutRows := (List.range m).map (fun i => (exp i).2.1)
        scores := (List.range m).map (fun i => (exp i).2.2)
        popSkillMean := ((List.range m).map (fun i => (exp i).1.skill)).sum / (m : ℚ)
        popLuckMean := ((List.range m).map (fun i => (exp i).1.luck)).sum / (m : ℚ)
        cutSkillMean := ((List.range m).map (fun i => (exp i).2.1.skill)).sum / (m : ℚ)
        cutLuckMean := ((List.range m).map (fun i => (exp i).2.1.luck)).sum / (m : ℚ) } := by
  obtain ⟨k, rfl⟩ : ∃ k, m = k + 2 := ⟨m - 2, by omega⟩
  have hpop : [(exp 0).1] ++ (List.range (k + 1)).map (fun i => (exp (i + 1)).1) =
      (List.range (k + 2)).map (fun i => (exp i).1) := by
    conv_rhs => rw [List.range_succ_eq_map]
    rw [List.map_cons, List.map_map]
    rfl
  have hcut : [(exp 0).2.1] ++ (List.range (k + 1)).map (fun i => (exp (i + 1)).2.1) =
      (List.range (k + 2)).map (fun i => (exp i).2.1) := by
    conv_rhs => rw [List.range_succ_eq_map]
    rw [List.map_cons, List.map_map]
    rfl
  have hsc : [(exp 0).2.2] ++ (List.range (k + 1)).map (fun i => (exp (i + 1)).2.2) =
      (List.range (k + 2)).map (fun i => (exp i).2.2) := by
    conv_rhs => rw [List.range_succ_eq_map]
    rw [List.map_cons, List.map_map]
    rfl
  unfold run_multiple_experiments
  dsimp only
  rw [show k + 2 - 1 = k + 1 from rfl, batch_foldl_eq, if_neg (Nat.succ_ne_zero k)]
  dsimp only
  rw [hpop, hcut, hsc]
  simp only [List.map_map, List.length_map, List.length_range]
  rfl

/-- Witness for C6: the constant experiment run twice; the orchestrator returns
the summary with all accumulated and printed quantities at their expected
values. -/
theorem C6_witness :
    run_multiple_experiments exConst 2 = some
      { popRows := (List.range 2).map (fun i => (exConst i).1)
        cutRows := (List.range 2).map (fun i => (exConst i).2.1)
        scores := (List.range 2).map (fun i => (exConst i).2.2)
        popSkillMean := ((List.range 2).map (fun i => (exConst i).1.skill)).sum / ((2 : ℕ) : ℚ)
        popLuckMean := ((List.range 2).map (fun i => (exConst i).1.luck)).sum / ((2 : ℕ) : ℚ)
        cutSkillMean := ((List.range 2).map (fun i => (exConst i).2.1.skill)).sum / ((2 : ℕ) : ℚ)
        cutLuckMean := ((List.range 2).map (fun i => (exConst i).2.1.luck)).sum / ((2 : ℕ) : ℚ) } :=
  C6_batch exConst 2 (by norm_num)

/-- C9: two calls of the Experiment Runner on the same samples and numeric
parameters but arbitrary verbose/report flags return the same triple — the
flags only select which diagnostic events are emitted — and that triple is the
one computed by the flag-free model. -/
theorem C9_flags_no_effect (skill luck : List ℚ) (mu sigma w θ tol : ℚ)
    (v₁ r₁ v₂ r₂ : Bool) :
    (run_experiment_full skill luck mu sigma w θ tol v₁ r₁).1 =
      (run_experiment_full skill luck mu sigma w θ tol v₂ r₂).1 ∧
    (run_experiment_full skill luck mu sigma w θ tol v₁ r₁).1 =
      run_experiment skill luck w θ := by
  by_cases hc : (cutoff_data skill luck w θ).length = 0 <;>
    simp [run_experiment_full, run_experiment, hc]

end LuckVsSkill
